import Mathlib

/-!
Verification of the handwritten-label-assistant recognition workflow.

The UI-layer definitions are shallow embeddings of the React sources
(`ConfidenceIndicator.jsx`, `RecognitionPage.jsx`).  The orchestrator core
(Response Parser, Quality Review Stage, Decision Router, Human Review Merge,
result cache) is not present in the repository snapshot — only its callers
(the HTTP client stubs) are — so those components are modelled from the
design document, as indicated on each definition.
-/

namespace LabelAssistant

/-! ### UI layer: ConfidenceIndicator.jsx -/

/-- Embeds `ConfidenceIndicator.jsx` line 11:
`const normalizedValue = value > 1 ? value / 100 : value;`. -/
def normalizedValue (value : ℚ) : ℚ :=
  if value > 1 then value / 100 else value

/-- Embeds `ConfidenceIndicator.jsx` line 12:
`const percentage = Math.round(normalizedValue * 100);`
(JavaScript `Math.round` is round-half-up, which is Mathlib `round`). -/
def percentage (value : ℚ) : ℤ :=
  round (normalizedValue value * 100)

/-- The four UI confidence tiers displayed by `ConfidenceIndicator.jsx`. -/
inductive Tier where
  | high
  | good
  | moderate
  | low
deriving DecidableEq, Repr

/-- Embeds the `if (percentage >= 90) ... else if (percentage >= 70) ...
else if (percentage >= 50) ... else ...` chain of
`ConfidenceIndicator.jsx` lines 17-37. -/
def tierOfPercentage (p : ℤ) : Tier :=
  if p ≥ 90 then .high
  else if p ≥ 70 then .good
  else if p ≥ 50 then .moderate
  else .low

/-- The tier the component assigns to a raw confidence `value`. -/
def confidenceTier (value : ℚ) : Tier :=
  tierOfPercentage (percentage value)

/-! ### UI layer: RecognitionPage.jsx `saveToHistory` -/

/-- One persisted history record, as assembled by `saveToHistory`
(`RecognitionPage.jsx` lines 71-80); only the fields the history logic
inspects are carried. -/
structure HistoryEntry where
  id : String
  timestamp : ℤ
  text : String
  confidence : ℚ
  model : String
  next_step : String
deriving DecidableEq, Repr

/-- Embeds `saveToHistory` (`RecognitionPage.jsx` lines 82-93): look up an
existing entry by id with `findIndex`; replace it in place when found,
otherwise `unshift` the new entry to the front; finally truncate to the
newest 50 entries.  JavaScript `findIndex` returns `-1` on a miss and the
code tests `existingIndex >= 0`; Lean `findIdx` returns the length on a
miss, so the corresponding test is `existingIndex < history.length`. -/
def saveToHistory (entry : HistoryEntry) (history : List HistoryEntry) :
    List HistoryEntry :=
  let existingIndex := history.findIdx (fun item => item.id == entry.id)
  let updated :=
    if existingIndex < history.length then history.set existingIndex entry
    else entry :: history
  if updated.length > 50 then updated.take 50 else updated

/-! ### Response Parser (modelled from the spec) -/

/-- Modelled from the spec: a flat structured-data value appearing in a
backend reply — the design document's prompt requests a JSON object with
a string `text` field and a numeric `confidence` field. -/
inductive JVal where
  | jstr (s : String)
  | jnum (q : ℚ)
deriving DecidableEq, Repr

/-- JSON insignificant whitespace. -/
def isWs (c : Char) : Bool :=
  c = ' ' || c = '\n' || c = '\t' || c = '\r'

/-- Drop leading whitespace. -/
def skipWs : List Char → List Char
  | [] => []
  | c :: cs => if isWs c then skipWs cs else c :: cs

/-- Scan a string literal body (the opening quote already consumed),
handling backslash escapes; returns the decoded string and the rest. -/
def parseStringAux : List Char → List Char → Option (String × List Char)
  | _, [] => none
  | acc, '\\' :: c :: rest =>
      let e := if c = 'n' then '\n' else if c = 't' then '\t'
               else if c = 'r' then '\r' else c
      parseStringAux (e :: acc) rest
  | acc, '"' :: rest => some (String.mk acc.reverse, rest)
  | acc, c :: rest => parseStringAux (c :: acc) rest

/-- Decimal digit test. -/
def isDigit (c : Char) : Bool :=
  '0' ≤ c && c ≤ '9'

/-- Value of a decimal digit character. -/
def digitVal (c : Char) : ℕ :=
  c.toNat - '0'.toNat

/-- Consume a maximal run of digits. -/
def takeDigits : List Char → List ℕ × List Char
  | [] => ([], [])
  | c :: cs =>
      if isDigit c then
        let p := takeDigits cs
        (digitVal c :: p.1, p.2)
      else ([], c :: cs)

/-- Natural number denoted by a digit list. -/
def natOfDigits (ds : List ℕ) : ℕ :=
  ds.foldl (fun a d => a * 10 + d) 0

/-- Parse a (possibly signed, possibly fractional) decimal literal. -/
def parseNumber (cs : List Char) : Option (ℚ × List Char) :=
  let sp := match cs with
    | '-' :: rest => (true, rest)
    | _ => (false, cs)
  match takeDigits sp.2 with
  | ([], _) => none
  | (d :: ds, rest) =>
    let intPart : ℚ := (natOfDigits (d :: ds) : ℚ)
    match rest with
    | '.' :: rest2 =>
      match takeDigits rest2 with
      | ([], _) => none
      | (f :: fs, rest3) =>
        let v : ℚ := mkRat
          (natOfDigits (d :: ds) * 10 ^ (f :: fs).length + natOfDigits (f :: fs))
          (10 ^ (f :: fs).length)
        some (if sp.1 then -v else v, rest3)
    | _ => some (if sp.1 then -intPart else intPart, rest)

/-- Parse one member value: a string literal or a number. -/
def parseValue (cs : List Char) : Option (JVal × List Char) :=
  match skipWs cs with
  | '"' :: rest => (parseStringAux [] rest).map (fun p => (JVal.jstr p.1, p.2))
  | cs2 => (parseNumber cs2).map (fun p => (JVal.jnum p.1, p.2))

/-- Parse a nonempty comma-separated member list `"key": value, ...`;
the fuel bounds the recursion by the input length. -/
def parseMembers : ℕ → List Char → Option (List (String × JVal) × List Char)
  | 0, _ => none
  | fuel + 1, cs =>
    match skipWs cs with
    | '"' :: rest =>
      match parseStringAux [] rest with
      | none => none
      | some (key, rest2) =>
        match skipWs rest2 with
        | ':' :: rest3 =>
          match parseValue rest3 with
          | none => none
          | some (v, rest4) =>
            match skipWs rest4 with
            | ',' :: rest5 =>
              match parseMembers fuel rest5 with
              | none => none
              | some (ms, rest6) => some ((key, v) :: ms, rest6)
            | rest5 => some ([(key, v)], rest5)
        | _ => none
    | _ => none

/-- Parse a brace-delimited object, returning its members and the rest. -/
def parseObjectChars (cs : List Char) : Option (List (String × JVal) × List Char) :=
  match skipWs cs with
  | '\x7b' :: rest =>
    match skipWs rest with
    | '\x7d' :: rest2 => some ([], rest2)
    | rest2 =>
      match parseMembers (rest2.length + 1) rest2 with
      | none => none
      | some (ms, rest3) =>
        match skipWs rest3 with
        | '\x7d' :: rest4 => some (ms, rest4)
        | _ => none
  | _ => none

/-- Modelled from the spec: the strict structured-data parse (tier 1 of
§4.3) — the whole raw text must be a single object, up to surrounding
whitespace. -/
def strictParse (s : String) : Option (List (String × JVal)) :=
  match parseObjectChars s.data with
  | some (ms, rest) => if skipWs rest = [] then some ms else none
  | none => none

/-- First string value bound to `key`. -/
def lookupString (ms : List (String × JVal)) (key : String) : Option String :=
  match ms.lookup key with
  | some (JVal.jstr s) => some s
  | _ => none

/-- First numeric value bound to `key`. -/
def lookupNumber (ms : List (String × JVal)) (key : String) : Option ℚ :=
  match ms.lookup key with
  | some (JVal.jnum q) => some q
  | _ => none

/-- Modelled from the spec (§4.4): raw confidences greater than 1 are
divided by 100, then the result is clamped to `[0,1]`.  The division is
written with `mkRat` (`q / 100 = mkRat q.num (q.den * 100)`). -/
def normalizeConfidence (q : ℚ) : ℚ :=
  let q1 := if q > 1 then mkRat q.num (q.den * 100) else q
  if q1 < 0 then 0 else if q1 > 1 then 1 else q1

/-- The Response Parser's typed output: extracted text, a normalized
confidence, and parse issues. -/
structure ParsedResponse where
  text : String
  confidence : ℚ
  issues : List String
deriving DecidableEq, Repr

/-- Interpret parsed members as a recognition payload: the `text` field
(defaulting to empty) and the normalized `confidence` field
(defaulting to 0). -/
def responseOfMembers (ms : List (String × JVal)) : ParsedResponse :=
  { text := (lookupString ms "text").getD ""
    confidence := normalizeConfidence ((lookupNumber ms "confidence").getD 0)
    issues := [] }

/-- Strict parse straight to a typed payload. -/
def strictParseResponse (s : String) : Option ParsedResponse :=
  (strictParse s).map responseOfMembers

/-- Length of the longest balanced brace-delimited prefix of a suffix that
starts at an opening brace: scan tracking depth, remembering the last
position where the depth returns to zero; an unmatched closing brace ends
the scan. -/
def bestBalancedLen : ℕ → ℕ → ℕ → List Char → ℕ
  | _, _, best, [] => best
  | depth, idx, best, c :: cs =>
    if c = '\x7b' then bestBalancedLen (depth + 1) (idx + 1) best cs
    else if c = '\x7d' then
      match depth with
      | 0 => best
      | 1 => bestBalancedLen 0 (idx + 1) (idx + 1) cs
      | d + 2 => bestBalancedLen (d + 1) (idx + 1) best cs
    else bestBalancedLen depth (idx + 1) best cs

/-- Fold over all suffixes, keeping the longest balanced brace-delimited
substring found so far (earliest wins ties). -/
def largestBalancedAux : List Char → Option (List Char) → Option (List Char)
  | [], best => best
  | c :: cs, best =>
    let best2 :=
      if c = '\x7b' then
        let len := bestBalancedLen 0 0 0 (c :: cs)
        if len = 0 then best
        else match best with
          | none => some ((c :: cs).take len)
          | some b => if b.length < len then some ((c :: cs).take len) else best
      else best
    largestBalancedAux cs best2

/-- Modelled from the spec (§4.3 tier 2): the largest balanced
brace-delimited substring of the raw text, if any. -/
def largestBalanced (cs : List Char) : Option (List Char) :=
  largestBalancedAux cs none

/-- Modelled from the spec: the three-tier Response Parser of §4.3 —
(1) strict parse; (2) on failure, extract the largest balanced
brace-delimited substring and retry; (3) on failure, fall back to the
whole raw text with confidence 0 and the issue "unstructured response".
The parser component itself is absent from the repository snapshot. -/
def parse_response (raw : String) : ParsedResponse :=
  match strictParseResponse raw with
  | some p => p
  | none =>
    match largestBalanced raw.data with
    | some sub =>
      match strictParseResponse (String.mk sub) with
      | some p => p
      | none => { text := raw, confidence := 0, issues := ["unstructured response"] }
    | none => { text := raw, confidence := 0, issues := ["unstructured response"] }

/-! ### Orchestrator data model (modelled from the spec, §3) -/

/-- The Quality Review Stage's accept/escalate recommendation. -/
inductive Verdict where
  | accept
  | needsHumanReview
deriving DecidableEq, Repr

/-- The Decision Router's derived routing decision (§4.6). -/
inductive NextStep where
  | approve
  | humanReview
  | complete
deriving DecidableEq, Repr

/-- The workflow stage visible to callers; `final_result` is populated
exactly in `complete`. -/
inductive Stage where
  | humanReview
  | complete
deriving DecidableEq, Repr

/-- Modelled from the spec: a RecognitionResult (§3) — extracted text,
normalized confidence, structured-data mapping, and provenance metadata. -/
structure RecognitionResult where
  text : String
  confidence : ℚ
  structured_data : List (String × String)
  model : String
  image_hash : List ℕ
deriving DecidableEq, Repr

/-- Modelled from the spec: a QualityAssessment (§3). -/
structure QualityAssessment where
  issues : List String
  suggestions : List String
  review_confidence : ℚ
  verdict : Verdict
deriving DecidableEq, Repr

/-- Modelled from the spec: a HumanCorrection (§3). -/
structure HumanCorrection where
  corrected_text : String
  corrected_structured_data : List (String × String)
  comments : String
deriving DecidableEq, Repr

/-- Modelled from the spec: the WorkflowState record (§3) threading one
request through the pipeline; `metadata_comments` is the audit log the
Human Review Merge appends correction comments to. -/
structure WorkflowState where
  stage : Stage
  recognition : RecognitionResult
  review : Option QualityAssessment
  correction : Option HumanCorrection
  final_result : Option RecognitionResult
  next_step : NextStep
  metadata_comments : List String
deriving DecidableEq, Repr

/-- Modelled from the spec: an inbound RecognitionRequest (§3). -/
structure RecognitionRequest where
  image : List ℕ
  model : String
  preprocess : Bool
  skip_review : Bool
deriving DecidableEq, Repr

/-- The error taxonomy of §7. -/
inductive OrchError where
  | providerError
  | parseError
  | invalidStateError
  | validationError
deriving DecidableEq, Repr

/-! ### Decision Router, Quality Review, Human Review Merge
(modelled from the spec) -/

/-- Modelled from the spec: the Decision Router's rule table (§4.6) on
the request's skip-review flag and the review verdict. -/
def decide_next_step (skip_review : Bool) (verdict : Verdict) : NextStep :=
  if skip_review then .approve
  else match verdict with
    | .accept => .complete
    | .needsHumanReview => .humanReview

/-- Modelled from the spec: the Decision Router's state transition —
`approve` and `complete` are terminal success outcomes carrying the
recognition result as `final_result`; `human_review` leaves
`final_result` unset and parks the workflow in the `humanReview` stage. -/
def route (skip_review : Bool) (rec : RecognitionResult)
    (qa : QualityAssessment) : WorkflowState :=
  match decide_next_step skip_review qa.verdict with
  | .approve =>
      { stage := .complete, recognition := rec, review := some qa
        correction := none, final_result := some rec
        next_step := .approve, metadata_comments := [] }
  | .complete =>
      { stage := .complete, recognition := rec, review := some qa
        correction := none, final_result := some rec
        next_step := .complete, metadata_comments := [] }
  | .humanReview =>
      { stage := .humanReview, recognition := rec, review := some qa
        correction := none, final_result := none
        next_step := .humanReview, metadata_comments := [] }

/-- Modelled from the spec: the review verdict thresholds the lower of
the recognition confidence and the review-derived confidence against the
fixed 0.85 cutoff (§4.5). -/
def reviewVerdict (recognition_confidence review_confidence : ℚ) : Verdict :=
  if 85 / 100 ≤ min recognition_confidence review_confidence then .accept
  else .needsHumanReview

/-- Modelled from the spec: the image content hash keying workflows and
the result cache; modelled as the collision-free content fingerprint. -/
def contentHash (image : List ℕ) : List ℕ := image

/-- The Prompt Builder's recognition-flavored instruction (§4.2). -/
def recognitionPrompt : String :=
  "Transcribe the handwritten label; reply with fields text and confidence."

/-- The Prompt Builder's review-flavored instruction referencing the
first pass (§4.2). -/
def reviewPrompt (rec : RecognitionResult) : String :=
  "Review this transcription: " ++ rec.text

/-- A Provider Adapter behavior: image bytes, prompt and model name to
raw response text (§4.1). -/
abbrev GenFun := List ℕ → String → String → String

/-- Modelled from the spec: the Recognition Stage (§4.4) — build the
prompt, invoke the provider once, parse the reply; returns the result
together with the number of provider invocations made. -/
def recognize (gen : GenFun) (req : RecognitionRequest) :
    RecognitionResult × ℕ :=
  let p := parse_response (gen req.image recognitionPrompt req.model)
  ({ text := p.text, confidence := p.confidence, structured_data := []
     model := req.model, image_hash := contentHash req.image }, 1)

/-- Modelled from the spec: the Quality Review Stage (§4.5) — skipped
(with a synthetic accepting assessment and zero provider calls) when the
request sets skip-review, otherwise one review provider call whose parsed
confidence is thresholded together with the recognition confidence. -/
def review_stage (gen : GenFun) (req : RecognitionRequest)
    (rec : RecognitionResult) : QualityAssessment × ℕ :=
  if req.skip_review then
    ({ issues := [], suggestions := [], review_confidence := 1
       verdict := .accept }, 0)
  else
    let p := parse_response (gen req.image (reviewPrompt rec) req.model)
    ({ issues := p.issues, suggestions := [], review_confidence := p.confidence
       verdict := reviewVerdict rec.confidence p.confidence }, 1)

/-- Modelled from the spec: one full pass of the pipeline —
Recognition Stage, Quality Review Stage, Decision Router — returning the
resulting WorkflowState and the total number of provider invocations. -/
def run_pipeline (gen : GenFun) (req : RecognitionRequest) :
    WorkflowState × ℕ :=
  let r := recognize gen req
  let q := review_stage gen req r.1
  (route req.skip_review r.1 q.1, r.2 + q.2)

/-! ### Result cache and entry points (modelled from the spec, §5-§6) -/

/-- The result cache: image hash to completed WorkflowState. -/
abbrev Cache := List (List ℕ × WorkflowState)

/-- Cache read. -/
def cacheGet (cache : Cache) (h : List ℕ) : Option WorkflowState :=
  cache.lookup h

/-- Modelled from the spec: write-once cache insertion — an existing
entry for the hash is never overwritten (§5). -/
def cachePut (cache : Cache) (h : List ℕ) (w : WorkflowState) : Cache :=
  match cache.lookup h with
  | some _ => cache
  | none => (h, w) :: cache

/-- A workflow state is terminal when it reached the `complete` stage. -/
def isTerminal (w : WorkflowState) : Bool :=
  match w.stage with
  | .complete => true
  | _ => false

/-- Modelled from the spec: the orchestrator's sole entry point (§6) — a
cache hit short-circuits to the cached terminal state with zero provider
calls; a miss runs the pipeline and caches the state when terminal. -/
def submit (gen : GenFun) (cache : Cache) (req : RecognitionRequest) :
    WorkflowState × Cache × ℕ :=
  match cacheGet cache (contentHash req.image) with
  | some w => (w, cache, 0)
  | none =>
    let p := run_pipeline gen req
    (p.1,
     if isTerminal p.1 then cachePut cache (contentHash req.image) p.1
     else cache,
     p.2)

/-- Modelled from the spec: the Human Review Merge (§4.7) — requires the
workflow to be awaiting review, overwrites the final result's text and
structured data with the correction's values, appends the comment to the
audit metadata, sets the stage to `complete`, and keeps the original
recognition result untouched. -/
def merge (w : WorkflowState) (c : HumanCorrection) :
    Except OrchError WorkflowState :=
  match w.stage with
  | .humanReview =>
      .ok { w with
              stage := .complete
              correction := some c
              final_result := some { w.recognition with
                                       text := c.corrected_text
                                       structured_data := c.corrected_structured_data }
              next_step := .complete
              metadata_comments := w.metadata_comments ++ [c.comments] }
  | _ => .error .invalidStateError

/-- The serving layer's workflow store: workflow id to state. -/
abbrev WorkflowStore := List (String × WorkflowState)

/-- Modelled from the spec: the `submit_correction` entry point (§6) —
looks the workflow up, applies the Human Review Merge, and updates the
store only on success; a merge failure is surfaced as a rejected request
with the store unchanged. -/
def submit_correction (store : WorkflowStore) (workflow_id : String)
    (c : HumanCorrection) : Except OrchError WorkflowState × WorkflowStore :=
  match store.lookup workflow_id with
  | none => (.error .validationError, store)
  | some w =>
    match merge w c with
    | .error e => (.error e, store)
    | .ok w2 => (.ok w2, (workflow_id, w2) :: store.eraseP (fun kv => kv.1 == workflow_id))

/-- The WorkflowStates an orchestrator run can produce: pipeline outputs
and successful merges of reachable states. -/
inductive Reachable (gen : GenFun) : WorkflowState → Prop
  | pipeline (req : RecognitionRequest) : Reachable gen (run_pipeline gen req).1
  | merged (w : WorkflowState) (c : HumanCorrection) (w2 : WorkflowState) :
      Reachable gen w → merge w c = .ok w2 → Reachable gen w2

/-! ### Concrete fixtures used by witnesses -/

/-- The raw response of the spec's parser example (§8). -/
def exampleResponse : String :=
  "Here you go: \x7b\"text\": \"ABC\", \"confidence\": 91\x7d"

/-- A non-JSON prose reply exercising the parser's final fallback. -/
def examplePlainProse : String :=
  "I could not read the label at all."

/-- A deterministic provider behavior returning a well-formed payload. -/
def sampleGen : GenFun :=
  fun _ _ _ => "\x7b\"text\": \"Box 12\", \"confidence\": 95\x7d"

/-- A request that bypasses the review stage. -/
def sampleSkipRequest : RecognitionRequest :=
  { image := [7, 7, 7], model := "llava", preprocess := false, skip_review := true }

/-- A request that goes through the review stage. -/
def sampleReviewRequest : RecognitionRequest :=
  { image := [1, 2, 3], model := "llava", preprocess := false, skip_review := false }

/-- A concrete recognition result. -/
def sampleRec : RecognitionResult :=
  { text := "Box 13, Shelf A", confidence := mkRat 60 100, structured_data := [("box", "13")]
    model := "llava", image_hash := [1, 2, 3] }

/-- A workflow parked in human review. -/
def sampleHumanReviewState : WorkflowState :=
  { stage := .humanReview, recognition := sampleRec
    review := some { issues := [], suggestions := [], review_confidence := mkRat 1 2
                     verdict := .needsHumanReview }
    correction := none, final_result := none
    next_step := .humanReview, metadata_comments := [] }

/-- A workflow already completed. -/
def sampleCompleteState : WorkflowState :=
  { stage := .complete, recognition := sampleRec
    review := none, correction := none, final_result := some sampleRec
    next_step := .complete, metadata_comments := [] }

/-- A concrete history record. -/
def sampleEntry : HistoryEntry :=
  { id := "img1", timestamp := 0, text := "Box 12", confidence := 1
    model := "llava", next_step := "complete" }

/-- A correction as submitted by the review UI. -/
def sampleCorrection : HumanCorrection :=
  { corrected_text := "Box 14, Shelf B", corrected_structured_data := [("box", "14")]
    comments := "fixed the box number" }

/-! ### Helper lemmas -/

/-- Setting an index to the value it already holds leaves a list unchanged. -/
theorem set_getElem_eq_self {α : Type _} {l : List α} {i : ℕ} {a : α}
    (h : i < l.length) (ha : l[i] = a) : l.set i a = l := by
  apply List.ext_getElem (by simp)
  intro j h1 h2
  rw [List.getElem_set]
  rcases eq_or_ne i j with rfl | hne
  · rw [if_pos rfl, ← ha]
  · rw [if_neg hne]

/-- Characterization of the four UI tiers on the rounded percentage. -/
theorem tierOfPercentage_spec (p : ℤ) :
    (tierOfPercentage p = .high ↔ 90 ≤ p) ∧
    (tierOfPercentage p = .good ↔ 70 ≤ p ∧ p < 90) ∧
    (tierOfPercentage p = .moderate ↔ 50 ≤ p ∧ p < 70) ∧
    (tierOfPercentage p = .low ↔ p < 50) := by
  unfold tierOfPercentage
  split_ifs with h1 h2 h3 <;> refine ⟨?_, ?_, ?_, ?_⟩ <;> simp <;> omega

/-- The review verdict accepts exactly when both confidences clear the
0.85 cutoff, and escalates exactly when either falls below it. -/
theorem reviewVerdict_spec (a b : ℚ) :
    (reviewVerdict a b = .accept ↔ 85 / 100 ≤ a ∧ 85 / 100 ≤ b) ∧
    (reviewVerdict a b = .needsHumanReview ↔ a < 85 / 100 ∨ b < 85 / 100) := by
  unfold reviewVerdict
  split_ifs with h
  · rw [le_inf_iff] at h
    refine ⟨iff_of_true rfl ⟨h.1, h.2⟩, ⟨False.elim, fun hor => ?_⟩⟩
    rcases hor with h1 | h1
    · exact absurd h.1 (not_le.mpr h1)
    · exact absurd h.2 (not_le.mpr h1)
  · rw [le_inf_iff, not_and_or, not_le, not_le] at h
    refine ⟨⟨False.elim, fun hand => ?_⟩, iff_of_true rfl h⟩
    rcases h with h1 | h1
    · exact absurd hand.1 (not_le.mpr h1)
    · exact absurd hand.2 (not_le.mpr h1)

/-- Every state the Decision Router produces satisfies the WorkflowState
invariants: a final result exactly in the `complete` stage, and a
`next_step` drawn from the routing table's range. -/
theorem route_state_invariant (skip : Bool) (rec : RecognitionResult)
    (qa : QualityAssessment) :
    ((route skip rec qa).final_result.isSome ↔ (route skip rec qa).stage = .complete) ∧
    ((route skip rec qa).next_step = .approve ∨
     (route skip rec qa).next_step = .humanReview ∨
     (route skip rec qa).next_step = .complete) := by
  unfold route
  cases h : decide_next_step skip qa.verdict <;> simp

/-! ### Claim theorems -/

/-- C1: for every combination of the skip-review flag and the review
verdict, the Decision Router derives `next_step` per the §4.6 rule table:
skip-review set gives `approve` with the recognition result as the final
result regardless of verdict; otherwise verdict `accept` gives `complete`
with the recognition result, and verdict `needs_human_review` gives
`human_review` with the final result left unset. -/
theorem C1_routing_table (rec : RecognitionResult) (qa : QualityAssessment) :
    ((route true rec qa).next_step = .approve ∧
     (route true rec qa).final_result = some rec) ∧
    ((route false rec { qa with verdict := .accept }).next_step = .complete ∧
     (route false rec { qa with verdict := .accept }).final_result = some rec) ∧
    ((route false rec { qa with verdict := .needsHumanReview }).next_step = .humanReview ∧
     (route false rec { qa with verdict := .needsHumanReview }).final_result = none) := by
  obtain ⟨i, s, rc, v⟩ := qa
  cases v <;> simp [route, decide_next_step]

/-- C2: for raw provider confidences (which lie in `[0,100]`), the UI
normalization divides by 100 exactly when the value exceeds 1, leaves it
unchanged otherwise, and the normalized value lies in `[0,1]`. -/
theorem C2_confidence_normalization (c : ℚ) (hc0 : 0 ≤ c) (hc100 : c ≤ 100) :
    normalizedValue c = (if 1 < c then c / 100 else c) ∧
    0 ≤ normalizedValue c ∧ normalizedValue c ≤ 1 := by
  refine ⟨rfl, ?_, ?_⟩ <;> unfold normalizedValue <;> split_ifs <;> linarith

/-- Witness for C2 at the raw confidence 91. -/
theorem C2_confidence_normalization_witness :
    ((0 : ℚ) ≤ 91 ∧ (91 : ℚ) ≤ 100) ∧
    (normalizedValue 91 = (if 1 < (91 : ℚ) then 91 / 100 else 91) ∧
     0 ≤ normalizedValue 91 ∧ normalizedValue 91 ≤ 1) :=
  ⟨⟨by norm_num, by norm_num⟩,
   C2_confidence_normalization 91 (by norm_num) (by norm_num)⟩

/-- C3: with the skip-review flag cleared, the Quality Review Stage's
recommended verdict is `accept` exactly when both the recognition
confidence and the review-derived confidence clear the fixed 0.85 cutoff
(i.e. when their minimum does), and is `needs_human_review` exactly when
either falls below it — either stage's doubt suffices to escalate. -/
theorem C3_review_double_threshold (gen : GenFun) (req : RecognitionRequest)
    (rec : RecognitionResult) (hskip : req.skip_review = false) :
    ((review_stage gen req rec).1.verdict = .accept ↔
      (85 : ℚ) / 100 ≤ rec.confidence ∧
      (85 : ℚ) / 100 ≤ (parse_response (gen req.image (reviewPrompt rec) req.model)).confidence) ∧
    ((review_stage gen req rec).1.verdict = .needsHumanReview ↔
      (rec.confidence < 85 / 100 ∨
       (parse_response (gen req.image (reviewPrompt rec) req.model)).confidence < 85 / 100)) := by
  have h := reviewVerdict_spec rec.confidence
    (parse_response (gen req.image (reviewPrompt rec) req.model)).confidence
  simpa [review_stage, hskip] using h

/-- Witness for C3 on a concrete review-path request. -/
theorem C3_review_double_threshold_witness :
    ((review_stage sampleGen sampleReviewRequest sampleRec).1.verdict = .accept ↔
      (85 : ℚ) / 100 ≤ sampleRec.confidence ∧
      (85 : ℚ) / 100 ≤ (parse_response (sampleGen sampleReviewRequest.image
        (reviewPrompt sampleRec) sampleReviewRequest.model)).confidence) ∧
    ((review_stage sampleGen sampleReviewRequest sampleRec).1.verdict = .needsHumanReview ↔
      (sampleRec.confidence < 85 / 100 ∨
       (parse_response (sampleGen sampleReviewRequest.image
         (reviewPrompt sampleRec) sampleReviewRequest.model)).confidence < 85 / 100)) :=
  C3_review_double_threshold sampleGen sampleReviewRequest sampleRec rfl

/-- C4: submitting a correction against a stored workflow whose stage is
not `human_review` fails with `InvalidStateError`, surfaced to the caller
as a rejected request, and leaves the workflow store unmodified. -/
theorem C4_correction_precondition (store : WorkflowStore) (wid : String)
    (w : WorkflowState) (c : HumanCorrection)
    (hw : store.lookup wid = some w) (hstage : w.stage ≠ .humanReview) :
    submit_correction store wid c = (.error .invalidStateError, store) := by
  have hm : merge w c = .error .invalidStateError := by
    unfold merge
    cases hs : w.stage
    · exact absurd hs hstage
    · rfl
  unfold submit_correction
  rw [hw]
  dsimp only
  rw [hm]

/-- Witness for C4 on a store holding a completed workflow. -/
theorem C4_correction_precondition_witness :
    ([("wf1", sampleCompleteState)] : WorkflowStore).lookup "wf1" = some sampleCompleteState ∧
    sampleCompleteState.stage ≠ .humanReview ∧
    submit_correction [("wf1", sampleCompleteState)] "wf1" sampleCorrection =
      (.error .invalidStateError, [("wf1", sampleCompleteState)]) :=
  ⟨rfl, by decide,
   C4_correction_precondition [("wf1", sampleCompleteState)] "wf1"
     sampleCompleteState sampleCorrection rfl (by decide)⟩

/-- C5: when an image's hash is not yet cached and its first submission
terminates in the `complete` stage, resubmitting the identical request
against the resulting cache returns the very same terminal WorkflowState,
leaves the cache unchanged, and makes zero provider invocations. -/
theorem C5_submit_idempotent (gen : GenFun) (cache : Cache)
    (req : RecognitionRequest)
    (hmiss : cacheGet cache (contentHash req.image) = none)
    (hterm : isTerminal (submit gen cache req).1 = true) :
    submit gen (submit gen cache req).2.1 req =
      ((submit gen cache req).1, (submit gen cache req).2.1, 0) := by
  have hterm2 : isTerminal (run_pipeline gen req).1 = true := by
    unfold submit at hterm
    rw [hmiss] at hterm
    exact hterm
  have e1 : submit gen cache req =
      ((run_pipeline gen req).1,
       cachePut cache (contentHash req.image) (run_pipeline gen req).1,
       (run_pipeline gen req).2) := by
    unfold submit
    rw [hmiss]
    dsimp only
    rw [hterm2]
    simp
  have e2 : cacheGet
      (cachePut cache (contentHash req.image) (run_pipeline gen req).1)
      (contentHash req.image) = some (run_pipeline gen req).1 := by
    unfold cacheGet at hmiss
    unfold cacheGet cachePut
    rw [hmiss]
    simp [List.lookup]
  rw [e1]
  dsimp only
  unfold submit
  rw [e2]

/-- Witness for C5: a skip-review request against the empty cache. -/
theorem C5_submit_idempotent_witness :
    cacheGet [] (contentHash sampleSkipRequest.image) = none ∧
    isTerminal (submit sampleGen [] sampleSkipRequest).1 = true ∧
    submit sampleGen (submit sampleGen [] sampleSkipRequest).2.1 sampleSkipRequest =
      ((submit sampleGen [] sampleSkipRequest).1,
       (submit sampleGen [] sampleSkipRequest).2.1, 0) :=
  ⟨rfl, by decide,
   C5_submit_idempotent sampleGen [] sampleSkipRequest rfl (by decide)⟩

/-- C6: the Response Parser never hard-fails — when the strict parse
fails and no balanced brace-delimited substring exists, it returns the
whole raw text with confidence 0 and the issue "unstructured response";
on the spec's example reply it extracts text "ABC" with confidence 0.91
via the brace-extraction tier, and on plain prose it falls back as
described. -/
theorem C6_parser_three_tier (raw : String)
    (h1 : strictParseResponse raw = none)
    (h2 : largestBalanced raw.data = none) :
    parse_response raw =
      { text := raw, confidence := 0, issues := ["unstructured response"] } ∧
    parse_response exampleResponse =
      { text := "ABC", confidence := 91 / 100, issues := [] } ∧
    parse_response examplePlainProse =
      { text := examplePlainProse, confidence := 0, issues := ["unstructured response"] } := by
  refine ⟨?_, ?_, by decide⟩
  · unfold parse_response
    rw [h1, h2]
  · have h : parse_response exampleResponse =
        { text := "ABC", confidence := mkRat 91 100, issues := [] } := by decide
    have hq : (mkRat 91 100 : ℚ) = 91 / 100 := by
      rw [Rat.mkRat_eq_div]; norm_num
    rw [h, hq]

/-- Witness for C6 at the prose reply. -/
theorem C6_parser_three_tier_witness :
    strictParseResponse examplePlainProse = none ∧
    largestBalanced examplePlainProse.data = none ∧
    (parse_response examplePlainProse =
       { text := examplePlainProse, confidence := 0, issues := ["unstructured response"] } ∧
     parse_response exampleResponse =
       { text := "ABC", confidence := 91 / 100, issues := [] } ∧
     parse_response examplePlainProse =
       { text := examplePlainProse, confidence := 0, issues := ["unstructured response"] }) :=
  ⟨by decide, by decide,
   C6_parser_three_tier examplePlainProse (by decide) (by decide)⟩

/-- C7: a successful Human Review Merge on a workflow awaiting review
produces a `complete` state whose final result carries the correction's
text and structured data, appends the correction's comment to the audit
metadata, and leaves the original recognition result untouched in the
record. -/
theorem C7_merge_overwrites_and_preserves (w : WorkflowState)
    (c : HumanCorrection) (hstage : w.stage = .humanReview) :
    ∃ w2, merge w c = .ok w2 ∧
      w2.final_result = some { w.recognition with
                                 text := c.corrected_text
                                 structured_data := c.corrected_structured_data } ∧
      w2.metadata_comments = w.metadata_comments ++ [c.comments] ∧
      w2.stage = .complete ∧
      w2.recognition = w.recognition := by
  obtain ⟨st, rec, rv, co, fr, ns, mc⟩ := w
  simp only at hstage
  subst hstage
  exact ⟨_, rfl, rfl, rfl, rfl, rfl⟩

/-- Witness for C7 at a concrete awaiting-review workflow. -/
theorem C7_merge_overwrites_and_preserves_witness :
    sampleHumanReviewState.stage = .humanReview ∧
    ∃ w2, merge sampleHumanReviewState sampleCorrection = .ok w2 ∧
      w2.final_result = some { sampleHumanReviewState.recognition with
                                 text := sampleCorrection.corrected_text
                                 structured_data := sampleCorrection.corrected_structured_data } ∧
      w2.metadata_comments =
        sampleHumanReviewState.metadata_comments ++ [sampleCorrection.comments] ∧
      w2.stage = .complete ∧
      w2.recognition = sampleHumanReviewState.recognition :=
  ⟨rfl, C7_merge_overwrites_and_preserves sampleHumanReviewState sampleCorrection rfl⟩

/-- C8: every reachable WorkflowState has a final result exactly when its
stage is `complete` (the skip-review `approve` routing also lands in the
`complete` stage with the final result set), and its derived `next_step`
is one of approve, human_review, complete. -/
theorem C8_workflow_invariants (gen : GenFun) (w : WorkflowState)
    (h : Reachable gen w) :
    (w.final_result.isSome ↔ w.stage = .complete) ∧
    (w.next_step = .approve ∨ w.next_step = .humanReview ∨ w.next_step = .complete) := by
  induction h with
  | pipeline req =>
      exact route_state_invariant req.skip_review (recognize gen req).1
        (review_stage gen req (recognize gen req).1).1
  | merged w c w2 hr hm ih =>
      have hcases : w.stage = Stage.humanReview ∨ w.stage = Stage.complete := by
        cases w.stage
        · exact Or.inl rfl
        · exact Or.inr rfl
      rcases hcases with hs | hs <;> unfold merge at hm <;> rw [hs] at hm
      · simp only [Except.ok.injEq] at hm
        subst hm
        simp
      · exact absurd hm (by simp)

/-- Witness for C8 at a concrete pipeline output. -/
theorem C8_workflow_invariants_witness :
    ((run_pipeline sampleGen sampleSkipRequest).1.final_result.isSome ↔
      (run_pipeline sampleGen sampleSkipRequest).1.stage = .complete) ∧
    ((run_pipeline sampleGen sampleSkipRequest).1.next_step = .approve ∨
     (run_pipeline sampleGen sampleSkipRequest).1.next_step = .humanReview ∨
     (run_pipeline sampleGen sampleSkipRequest).1.next_step = .complete) :=
  C8_workflow_invariants sampleGen _ (Reachable.pipeline sampleSkipRequest)

/-- C9: the UI confidence indicator classifies the rounded normalized
percentage into exactly the four tiers with cutoffs 90, 70 and 50: High
at or above 90, Good in `[70,90)`, Moderate in `[50,70)`, and Low below
50. -/
theorem C9_confidence_tiers (value : ℚ) :
    (confidenceTier value = .high ↔ 90 ≤ percentage value) ∧
    (confidenceTier value = .good ↔ 70 ≤ percentage value ∧ percentage value < 90) ∧
    (confidenceTier value = .moderate ↔ 50 ≤ percentage value ∧ percentage value < 70) ∧
    (confidenceTier value = .low ↔ percentage value < 50) :=
  tierOfPercentage_spec (percentage value)

/-- C10: after `saveToHistory` the persisted history holds at most 50
entries; a result with a fresh id is placed first; a result whose id is
already present replaces the existing entry in place, leaving the id
sequence unchanged; and id uniqueness is preserved. -/
theorem C10_saveToHistory_invariants (e : HistoryEntry)
    (history : List HistoryEntry) (hlen : history.length ≤ 50) :
    (saveToHistory e history).length ≤ 50 ∧
    (e.id ∉ history.map HistoryEntry.id → (saveToHistory e history).head? = some e) ∧
    (e.id ∈ history.map HistoryEntry.id →
      (saveToHistory e history).map HistoryEntry.id = history.map HistoryEntry.id) ∧
    ((history.map HistoryEntry.id).Nodup →
      ((saveToHistory e history).map HistoryEntry.id).Nodup) := by
  by_cases hmem : e.id ∈ history.map HistoryEntry.id
  · have hex : ∃ x ∈ history, (fun item => item.id == e.id) x := by
      obtain ⟨x, hx, hxid⟩ := List.mem_map.mp hmem
      exact ⟨x, hx, by simp [hxid]⟩
    have hilt : history.findIdx (fun item => item.id == e.id) < history.length :=
      List.findIdx_lt_length_of_exists hex
    have hpid : (history[history.findIdx (fun item => item.id == e.id)]).id = e.id := by
      have := List.findIdx_getElem (w := hilt)
      simpa using this
    have hset : saveToHistory e history =
        history.set (history.findIdx (fun item => item.id == e.id)) e := by
      simp only [saveToHistory]
      rw [if_pos hilt, List.length_set, if_neg (by omega)]
    have hmapeq : (saveToHistory e history).map HistoryEntry.id =
        history.map HistoryEntry.id := by
      rw [hset, List.map_set]
      exact set_getElem_eq_self (by simpa using hilt) (by simpa using hpid)
    refine ⟨?_, fun hnot => absurd hmem hnot, fun _ => hmapeq, fun hnd => hmapeq ▸ hnd⟩
    rw [hset]
    simpa using hlen
  · have hall : ∀ x ∈ history, ((fun item => item.id == e.id) x) = false := by
      intro x hx
      simp only [beq_eq_false_iff_ne, ne_eq]
      intro hxe
      exact hmem (List.mem_map.mpr ⟨x, hx, hxe⟩)
    have hidx : history.findIdx (fun item => item.id == e.id) = history.length :=
      List.findIdx_eq_length_of_false hall
    have hcons : saveToHistory e history =
        if (e :: history).length > 50 then (e :: history).take 50
        else (e :: history) := by
      simp only [saveToHistory]
      rw [hidx, if_neg (lt_irrefl history.length)]
    refine ⟨?_, ?_, fun habs => absurd habs hmem, ?_⟩
    · rw [hcons]
      split_ifs with h
      · rw [List.length_take]
        exact min_le_left _ _
      · exact not_lt.mp h
    · intro _
      rw [hcons]
      split_ifs with h
      · rw [show (50 : ℕ) = 49 + 1 from rfl, List.take_succ_cons]
        rfl
      · rfl
    · intro hnd
      have hnd2 : ((e :: history).map HistoryEntry.id).Nodup := by
        rw [List.map_cons, List.nodup_cons]
        exact ⟨hmem, hnd⟩
      have hsub : List.Sublist ((saveToHistory e history).map HistoryEntry.id)
          ((e :: history).map HistoryEntry.id) := by
        rw [hcons]
        split_ifs
        · exact (List.take_sublist _ _).map _
        · exact List.Sublist.refl _
      exact List.Nodup.sublist hsub hnd2

/-- Witness for C10 saving a concrete entry into the empty history. -/
theorem C10_saveToHistory_invariants_witness :
    ([] : List HistoryEntry).length ≤ 50 ∧
    ((saveToHistory sampleEntry []).length ≤ 50 ∧
     (sampleEntry.id ∉ ([] : List HistoryEntry).map HistoryEntry.id →
       (saveToHistory sampleEntry []).head? = some sampleEntry) ∧
     (sampleEntry.id ∈ ([] : List HistoryEntry).map HistoryEntry.id →
       (saveToHistory sampleEntry []).map HistoryEntry.id =
         ([] : List HistoryEntry).map HistoryEntry.id) ∧
     ((([] : List HistoryEntry).map HistoryEntry.id).Nodup →
       ((saveToHistory sampleEntry []).map HistoryEntry.id).Nodup)) :=
  ⟨by decide, C10_saveToHistory_invariants sampleEntry [] (by decide)⟩

end LabelAssistant
